import Mathlib

/-!
Verification development for the Uniswap-v3 backtesting core
(`cls/uniswap_v3_math.py` and `strategies.py`).

Python floats are idealised as exact rationals (`ℚ`).  Python's
`x ** 0.5` has no rational counterpart, so every function of the source
that takes a square root receives an explicit square-root function
`sq : ℚ → ℚ`; theorems that depend on square-root semantics hypothesise
`(sq x) ^ 2 = x ∧ 0 ≤ sq x` at the points they use.  A float division by
zero raises `ZeroDivisionError` in Python; the one place the
specification assigns meaning to that failure (`calculate_fee`) is
embedded with an `Option` result, and the daily strategy step propagates
that failure.  Divisions elsewhere use ℚ's total division.
-/

namespace UniV3

/-- `TICK_BASE`, from `uniswap_v3_math.py`. -/
def TICK_BASE : ℚ := 10001 / 10000

/-- `Q96 = 2 ** 96`, from `uniswap_v3_math.py`. -/
def Q96 : ℚ := 2 ^ 96

/-- `tick_to_price(tick) = TICK_BASE ** tick` (ticks are integers). -/
def tick_to_price (tick : ℤ) : ℚ := TICK_BASE ^ tick

/-- `expand_decimals(number, exponent) = number * 10 ** exponent`. -/
def expand_decimals (number : ℚ) (exponent : ℤ) : ℚ := number * 10 ^ exponent

/-- `get_sqrt_price_x96(price, token0_decimal, token1_decimal)`;
`sq` stands for the source's `** 0.5`. -/
def get_sqrt_price_x96 (sq : ℚ → ℚ) (price : ℚ) (token0_decimal token1_decimal : ℤ) : ℚ :=
  sq (expand_decimals price token0_decimal / expand_decimals 1 token1_decimal) * 2 ^ 96

/-- `mul_div(a, b, multiplier) = a * b / multiplier`. -/
def mul_div (a b multiplier : ℚ) : ℚ := a * b / multiplier

/-- `get_liquidity_for_amount0(sqrt_ratio_ax96, sqrt_ratio_bx96, amount0)`. -/
def get_liquidity_for_amount0 (sqrt_ratio_ax96 sqrt_ratio_bx96 amount0 : ℚ) : ℚ :=
  mul_div amount0 (mul_div sqrt_ratio_bx96 sqrt_ratio_ax96 Q96)
    (sqrt_ratio_bx96 - sqrt_ratio_ax96)

/-- `get_liquidity_for_amount1(sqrt_ratio_ax96, sqrt_ratio_bx96, amount1)`. -/
def get_liquidity_for_amount1 (sqrt_ratio_ax96 sqrt_ratio_bx96 amount1 : ℚ) : ℚ :=
  mul_div amount1 Q96 (sqrt_ratio_bx96 - sqrt_ratio_ax96)

/-- `get_liquidity_for_amounts` from `uniswap_v3_math.py` (lines 145-170):
decimal-expand both amounts, then a two-way branch on
`sqrt_ratio_x96 <= sqrt_ratio_ax96`. -/
def get_liquidity_for_amounts (sqrt_ratio_x96 sqrt_ratio_ax96 sqrt_ratio_bx96 amount0 : ℚ)
    (token0_decimals : ℤ) (amount1 : ℚ) (token1_decimals : ℤ) : ℚ :=
  let amount0e := expand_decimals amount0 token0_decimals
  let amount1e := expand_decimals amount1 token1_decimals
  if sqrt_ratio_x96 ≤ sqrt_ratio_ax96 then
    min (get_liquidity_for_amount0 sqrt_ratio_x96 sqrt_ratio_bx96 amount0e)
      (get_liquidity_for_amount1 sqrt_ratio_ax96 sqrt_ratio_x96 amount1e)
  else
    get_liquidity_for_amount1 sqrt_ratio_ax96 sqrt_ratio_bx96 amount1e

/-- `get_tier_percentage(tier)`: the four known fee tiers, else `0.0`. -/
def get_tier_percentage (tier : ℚ) : ℚ :=
  if tier = 100 then 1 / 10000
  else if tier = 500 then 5 / 10000
  else if tier = 3000 then 3 / 1000
  else if tier = 10000 then 1 / 100
  else 0

/-- `calculate_fee(delta_liquidity, liquidity, volume, pool_fee_tier)`.
Python raises `ZeroDivisionError` when `liquidity + delta_liquidity == 0`;
that failure is embedded as `none`. -/
def calculate_fee (delta_liquidity liquidity volume pool_fee_tier : ℚ) : Option ℚ :=
  if liquidity + delta_liquidity = 0 then none
  else
    some (get_tier_percentage pool_fee_tier * volume
      * (delta_liquidity / (liquidity + delta_liquidity)))

/-- `get_token_amounts_from_deposit_amounts` from `uniswap_v3_math.py`
(lines 89-115); `sq` stands for the source's `** 0.5`.  The two
sequential clamp `if`s of each leg are kept in source order. -/
def get_token_amounts_from_deposit_amounts (sq : ℚ → ℚ)
    (price price_lower_bound price_upper_bound price_usd_x price_usd_y target_amount : ℚ) :
    ℚ × ℚ :=
  let sp := sq price
  let spl := sq price_lower_bound
  let spu := sq price_upper_bound
  let delta_l := target_amount /
    ((sp - spl) * price_usd_y + (1 / sp - 1 / spu) * price_usd_x)
  let dy0 := delta_l * (sp - spl)
  let dy1 := if dy0 * price_usd_y < 0 then 0 else dy0
  let delta_y := if dy1 * price_usd_y > target_amount then target_amount / price_usd_y else dy1
  let dx0 := delta_l * (1 / sp - 1 / spu)
  let dx1 := if dx0 * price_usd_x < 0 then 0 else dx0
  let delta_x := if dx1 * price_usd_x > target_amount then target_amount / price_usd_x else dx1
  (delta_x, delta_y)

/-- `Web3.fromWei(x, "ether") = x / 10 ** 18`. -/
def weiToEther (x : ℚ) : ℚ := x / 10 ^ 18

/-- Python's `round(x, 2)`: round to the nearest multiple of `1/100`
(the tie-breaking convention is immaterial to the claims; `round` of
Mathlib is used for ties). -/
def round2 (x : ℚ) : ℚ := (round (100 * x) : ℤ) / 100

/-! ## Strategy state machine (`strategies.py`)

One immutable snapshot per simulated day (the lines of the data feed),
immutable constructor parameters, and the mutable per-run state
(`broker` cash, `calculated_fees`, `bar_executed`, `last_hp_price`). -/

/-- One `DailyMarketSnapshot`: the data-feed lines read by the strategies. -/
structure Snapshot where
  open_ : ℚ
  low : ℚ
  high : ℚ
  close : ℚ
  volume : ℚ
  tvl : ℚ
  fees : ℚ
  liquidity : ℚ
  token0_price : ℚ
  token1_price : ℚ
  tick : ℤ
  wei : ℚ
  gwei : ℚ
deriving DecidableEq, Inhabited

/-- Constructor parameters shared by the three strategy classes
(`SimpleStrategy`/`Bonus1Strategy` ignore the mint/burn gas fields,
which only `Bonus2Strategy.__init__` receives). -/
structure Params where
  lp_range : ℚ × ℚ
  pool_fee_tier : ℚ
  token0_decimals : ℤ
  token1_decimals : ℤ
  gas_for_swap_event : ℚ
  gas_for_mint_event : ℚ
  gas_for_burn_event : ℚ
deriving DecidableEq

/-- The mutable per-run state: broker cash, the accrual list
`calculated_fees`, the day counter `bar_executed`, and (for the two
trend-gated strategies) the reference price `last_hp_price`
(`SimpleStrategy` never reads or writes the last field). -/
structure StrategyState where
  cash : ℚ
  calculated_fees : List ℚ
  bar_executed : ℕ
  last_hp_price : ℚ
deriving DecidableEq

/-- The holding-period heuristic from each `__init__`
(`strategies.py` lines 38-44): `|lp_range[0]| <= 0.12 -> 1`,
`<= 0.25 -> 7`, else `30`. -/
def holdingPeriod (lp_range : ℚ × ℚ) : ℕ :=
  if |lp_range.1| ≤ 12 / 100 then 1
  else if |lp_range.1| ≤ 25 / 100 then 7
  else 30

/-- Python's `sum(fees[-k:])` (negative-index slice; for `k` larger than
the list, the whole list — matched by ℕ-truncated subtraction). -/
def sliceSum (l : List ℚ) (k : ℕ) : ℚ := (l.drop (l.length - k)).sum

/-- The state constructed by `__init__`: empty accrual list, zero day
counter, `last_hp_price = 1e20`. -/
def initState (cash : ℚ) : StrategyState :=
  ⟨cash, [], 0, 10 ^ 20⟩

/-- The per-day fee pipeline shared verbatim by the three `next`
methods (`strategies.py` lines 138-197, 343-412, 570-646): price from
the tick, range bounds from `lp_range`, deposit split, sqrt ratios,
delta liquidity, then `calculate_fee` (whose division-by-zero failure
propagates). -/
def dailyFee (sq : ℚ → ℚ) (pr : Params) (snap : Snapshot) (target_amount : ℚ) : Option ℚ :=
  let p := 1 / (tick_to_price snap.tick / (10 : ℚ) ^ (pr.token1_decimals - pr.token0_decimals))
  let pl := p * (1 - |pr.lp_range.1|)
  let pu := p * (1 + |pr.lp_range.2|)
  let price_usd_x := snap.token1_price
  let price_usd_y := snap.token0_price
  let amounts := get_token_amounts_from_deposit_amounts sq p pl pu price_usd_x price_usd_y
    target_amount
  let sqrt_ratio_x96 := get_sqrt_price_x96 sq p pr.token0_decimals pr.token1_decimals
  let sqrt_ratio_ax96 := get_sqrt_price_x96 sq pl pr.token0_decimals pr.token1_decimals
  let sqrt_ratio_bx96 := get_sqrt_price_x96 sq pu pr.token0_decimals pr.token1_decimals
  let delta_liquidity := get_liquidity_for_amounts sqrt_ratio_x96 sqrt_ratio_ax96 sqrt_ratio_bx96
    amounts.1 pr.token1_decimals amounts.2 pr.token0_decimals
  calculate_fee delta_liquidity snap.liquidity snap.volume pr.pool_fee_tier

/-- The `start` hook shared by the three strategies: deduct the rounded
one-time swap cost `round(gas_for_swap_event * fromWei(wei[0], "ether")
* token1_price[0], 2)` from cash. -/
def startCash (pr : Params) (snap : Snapshot) (cash : ℚ) : ℚ :=
  cash - round2 (pr.gas_for_swap_event * weiToEther snap.wei * snap.token1_price)

/-- Backtrader's day loop: fold the daily `next` over the snapshot
sequence, propagating a failed day (`none`) as an aborted run. -/
def runDays (step : Snapshot → StrategyState → Option StrategyState) :
    List Snapshot → StrategyState → Option StrategyState
  | [], s => some s
  | snap :: rest, s =>
    match step snap s with
    | none => none
    | some s' => runDays step rest s'

namespace SimpleStrategy

/-- `SimpleStrategy.next` (`strategies.py` lines 138-220): always stake;
append the day's fee; on `bar_executed == holding_period` credit the
summed window (`fee` itself when the counter is 1, else
`sum(calculated_fees[-bar_executed:])`) and reset the counter.  The
accrual list is never cleared. -/
def next (sq : ℚ → ℚ) (pr : Params) (snap : Snapshot) (s : StrategyState) :
    Option StrategyState :=
  (dailyFee sq pr snap s.cash).map fun fee =>
    if s.bar_executed + 1 = holdingPeriod pr.lp_range then
      ⟨s.cash + (if s.bar_executed + 1 = 1 then fee
          else sliceSum (s.calculated_fees ++ [fee]) (s.bar_executed + 1)),
        s.calculated_fees ++ [fee], 0, s.last_hp_price⟩
    else
      ⟨s.cash, s.calculated_fees ++ [fee], s.bar_executed + 1, s.last_hp_price⟩

/-- `SimpleStrategy.start` then iteration of `next` over the feed. -/
def run (sq : ℚ → ℚ) (pr : Params) (snaps : List Snapshot) (cash : ℚ) : Option StrategyState :=
  match snaps with
  | [] => none
  | s0 :: _ => runDays (next sq pr) snaps (initState (startCash pr s0 cash))

end SimpleStrategy

namespace Bonus1Strategy

/-- `Bonus1Strategy.next` (`strategies.py` lines 343-443): skip staking
when today's token1 price exceeds `last_hp_price`; otherwise run the fee
pipeline and append.  On `bar_executed == holding_period` the same gate
is re-checked (same operands, so the two source checks are one case
split here): open → credit the summed window; either way record today's
token1 price as the new reference and reset the counter. -/
def next (sq : ℚ → ℚ) (pr : Params) (snap : Snapshot) (s : StrategyState) :
    Option StrategyState :=
  if snap.token1_price > s.last_hp_price then
    some (if s.bar_executed + 1 = holdingPeriod pr.lp_range then
        ⟨s.cash, s.calculated_fees, 0, snap.token1_price⟩
      else
        ⟨s.cash, s.calculated_fees, s.bar_executed + 1, s.last_hp_price⟩)
  else
    (dailyFee sq pr snap s.cash).map fun fee =>
      if s.bar_executed + 1 = holdingPeriod pr.lp_range then
        ⟨s.cash + (if s.bar_executed + 1 = 1 then fee
            else sliceSum (s.calculated_fees ++ [fee]) (s.bar_executed + 1)),
          s.calculated_fees ++ [fee], 0, snap.token1_price⟩
      else
        ⟨s.cash, s.calculated_fees ++ [fee], s.bar_executed + 1, s.last_hp_price⟩

/-- `Bonus1Strategy.start` then iteration of `next` over the feed. -/
def run (sq : ℚ → ℚ) (pr : Params) (snaps : List Snapshot) (cash : ℚ) : Option StrategyState :=
  match snaps with
  | [] => none
  | s0 :: _ => runDays (next sq pr) snaps (initState (startCash pr s0 cash))

end Bonus1Strategy

namespace Bonus2Strategy

/-- The mint cost of the day (`strategies.py` lines 597-598). -/
def mintPrice (pr : Params) (snap : Snapshot) : ℚ :=
  pr.gas_for_mint_event * weiToEther snap.wei * snap.token1_price

/-- The burn cost of the day (`strategies.py` lines 599-600). -/
def burnPrice (pr : Params) (snap : Snapshot) : ℚ :=
  pr.gas_for_burn_event * weiToEther snap.wei * snap.token1_price

/-- `Bonus2Strategy.next` (`strategies.py` lines 570-677): as
`Bonus1Strategy.next`, but a gate-open settlement credits
`cumulated_fees - mint_price - burn_price`. -/
def next (sq : ℚ → ℚ) (pr : Params) (snap : Snapshot) (s : StrategyState) :
    Option StrategyState :=
  if snap.token1_price > s.last_hp_price then
    some (if s.bar_executed + 1 = holdingPeriod pr.lp_range then
        ⟨s.cash, s.calculated_fees, 0, snap.token1_price⟩
      else
        ⟨s.cash, s.calculated_fees, s.bar_executed + 1, s.last_hp_price⟩)
  else
    (dailyFee sq pr snap s.cash).map fun fee =>
      if s.bar_executed + 1 = holdingPeriod pr.lp_range then
        ⟨s.cash + ((if s.bar_executed + 1 = 1 then fee
            else sliceSum (s.calculated_fees ++ [fee]) (s.bar_executed + 1))
            - mintPrice pr snap - burnPrice pr snap),
          s.calculated_fees ++ [fee], 0, snap.token1_price⟩
      else
        ⟨s.cash, s.calculated_fees ++ [fee], s.bar_executed + 1, s.last_hp_price⟩

/-- `Bonus2Strategy.start` then iteration of `next` over the feed. -/
def run (sq : ℚ → ℚ) (pr : Params) (snaps : List Snapshot) (cash : ℚ) : Option StrategyState :=
  match snaps with
  | [] => none
  | s0 :: _ => runDays (next sq pr) snaps (initState (startCash pr s0 cash))

end Bonus2Strategy

/-! ## Concrete fixtures used by witnesses and counterexamples -/

/-- A degenerate stand-in for `** 0.5` (the claims settled on concrete
runs do not depend on square-root values). -/
def sqrt0 : ℚ → ℚ := fun _ => 0

/-- An exact square-root table for the perfect squares 1, 4, 9. -/
def sqrtTable : ℚ → ℚ := fun q =>
  if q = 4 then 2 else if q = 1 then 1 else if q = 9 then 3 else 0

/-- A snapshot with the fee-relevant fields set and the unused OHLC
fields zero. -/
def snapT (tick : ℤ) (volume liquidity p0 p1 wei : ℚ) : Snapshot :=
  ⟨0, 0, 0, 0, volume, 0, 0, liquidity, p0, p1, tick, wei, 0⟩

/-- Parameters with a symmetric LP range, fee tier 3000, zero-decimal
tokens and unit gas costs. -/
def prT (lp : ℚ) : Params := ⟨(lp, lp), 3000, 0, 0, 1, 1, 1⟩

/-! ## Helper lemmas -/

lemma hp_tenth : holdingPeriod (1 / 10, 1 / 10) = 1 := by
  rw [holdingPeriod, show |(1 : ℚ) / 10| = 1 / 10 from abs_of_nonneg (by norm_num)]
  norm_num

lemma hp_half : holdingPeriod (1 / 2, 1 / 2) = 30 := by
  rw [holdingPeriod, show |(1 : ℚ) / 2| = 1 / 2 from abs_of_nonneg (by norm_num)]
  norm_num

lemma holdingPeriod_pos (lp : ℚ × ℚ) : 0 < holdingPeriod lp := by
  unfold holdingPeriod
  split_ifs <;> norm_num

lemma get_tier_percentage_nonneg (tier : ℚ) : 0 ≤ get_tier_percentage tier := by
  unfold get_tier_percentage
  split_ifs <;> norm_num

lemma succ_decomp (n hp : ℕ) : n + 1 = n % hp + 1 + hp * (n / hp) := by
  conv_lhs => rw [← Nat.div_add_mod n hp]
  ring

lemma succ_mod_eq_zero {n hp : ℕ} (h : n % hp + 1 = hp) : (n + 1) % hp = 0 := by
  rw [succ_decomp n hp, h, show hp + hp * (n / hp) = hp * (1 + n / hp) from by ring]
  exact Nat.mul_mod_right _ _

lemma succ_mod_eq {n hp : ℕ} (hp0 : 0 < hp) (h : n % hp + 1 ≠ hp) :
    (n + 1) % hp = n % hp + 1 := by
  have hlt : n % hp < hp := Nat.mod_lt _ hp0
  have hlt1 : n % hp + 1 < hp := lt_of_le_of_ne hlt h
  rw [succ_decomp n hp, Nat.add_mul_mod_self_left]
  exact Nat.mod_eq_of_lt hlt1

lemma runDays_nil (step) (s : StrategyState) : runDays step [] s = some s := rfl

lemma runDays_cons (step) (snap : Snapshot) (rest : List Snapshot) (s : StrategyState) :
    runDays step (snap :: rest) s =
      (step snap s).bind fun s' => runDays step rest s' := by
  cases h : step snap s <;> simp [runDays, h]

lemma runDays_append (step) (l₁ l₂ : List Snapshot) (s : StrategyState) :
    runDays step (l₁ ++ l₂) s = (runDays step l₁ s).bind fun s' => runDays step l₂ s' := by
  induction l₁ generalizing s with
  | nil => simp [runDays]
  | cons x xs ih =>
    rw [List.cons_append, runDays_cons, runDays_cons]
    cases h : step x s <;> simp [ih]

lemma runDays_take_succ (step) (l : List Snapshot) (n : ℕ) (h : n < l.length)
    (s : StrategyState) :
    runDays step (l.take (n + 1)) s =
      (runDays step (l.take n) s).bind fun s' => step (l.get ⟨n, h⟩) s' := by
  rw [List.take_succ]
  rw [List.getElem?_eq_getElem h]
  rw [runDays_append]
  congr 1
  funext s'
  show runDays step [l[n]] s' = step (l.get ⟨n, h⟩) s'
  cases hstep : step (l.get ⟨n, h⟩) s' <;> simp [runDays, List.get_eq_getElem] at hstep ⊢ <;>
    simp [hstep]

/-- Run invariant of the always-stake strategy: one accrual entry per
day, the day counter equals days `mod` holding period, and cash equals
the starting cash plus the sum of the entries of all settled windows. -/
lemma simple_run_inv (sq : ℚ → ℚ) (pr : Params) (snaps : List Snapshot) (c r : ℚ) :
    ∀ n, n ≤ snaps.length → ∀ s,
      runDays (SimpleStrategy.next sq pr) (snaps.take n) ⟨c, [], 0, r⟩ = some s →
      s.calculated_fees.length = n ∧
      s.bar_executed = n % holdingPeriod pr.lp_range ∧
      s.cash = c + (s.calculated_fees.take (n - n % holdingPeriod pr.lp_range)).sum := by
  intro n
  induction n with
  | zero =>
    intro _ s hs
    rw [List.take_zero, runDays_nil] at hs
    cases hs
    simp
  | succ n ih =>
    intro hn1 s hs
    have hn : n < snaps.length := Nat.lt_of_succ_le hn1
    rw [runDays_take_succ _ _ _ hn] at hs
    rcases Option.bind_eq_some.mp hs with ⟨sN, hsN, hstep⟩
    obtain ⟨hlen, hbar, hcash⟩ := ih (le_of_lt hn) sN hsN
    rw [SimpleStrategy.next] at hstep
    rcases Option.map_eq_some'.mp hstep with ⟨fee, hfee, hs'⟩
    set hp := holdingPeriod pr.lp_range with hhp
    have hp0 : 0 < hp := holdingPeriod_pos pr.lp_range
    by_cases hset : sN.bar_executed + 1 = hp
    · rw [if_pos hset] at hs'
      subst hs'
      have hmod : (n + 1) % hp = 0 := succ_mod_eq_zero (hbar ▸ hset)
      refine ⟨by simpa using hlen, by simpa using hmod.symm, ?_⟩
      have hfull : ((sN.calculated_fees ++ [fee]).take (n + 1 - (n + 1) % hp)).sum
          = (sN.calculated_fees ++ [fee]).sum := by
        rw [hmod, Nat.sub_zero]
        rw [List.take_of_length_le (by simp [hlen])]
      have hcum : (if sN.bar_executed + 1 = 1 then fee
          else sliceSum (sN.calculated_fees ++ [fee]) (sN.bar_executed + 1))
          = ((sN.calculated_fees ++ [fee]).drop (n - n % hp)).sum := by
        by_cases h1 : sN.bar_executed + 1 = 1
        · rw [if_pos h1]
          have hb0 : n % hp = 0 := by omega
          have : n - n % hp = sN.calculated_fees.length := by omega
          rw [this, List.drop_left]
          simp
        · rw [if_neg h1]
          unfold sliceSum
          congr 2
          simp [hlen]
          omega
      have hsplit : ((sN.calculated_fees ++ [fee]).take (n - n % hp)).sum
          + ((sN.calculated_fees ++ [fee]).drop (n - n % hp)).sum
          = (sN.calculated_fees ++ [fee]).sum := by
        rw [← List.sum_append, List.take_append_drop]
      have htake : ((sN.calculated_fees ++ [fee]).take (n - n % hp)).sum
          = (sN.calculated_fees.take (n - n % hp)).sum := by
        rw [List.take_append_of_le_length (by omega)]
      simp only [StrategyState.mk.injEq] at *
      show sN.cash + _ = c + _
      rw [hcum, hfull, hcash]
      rw [← hsplit, htake]
      ring
    · rw [if_neg hset] at hs'
      subst hs'
      have hmod : (n + 1) % hp = n % hp + 1 := succ_mod_eq hp0 (hbar ▸ hset)
      refine ⟨by simpa using hlen, by simpa using (hbar ▸ hmod).symm, ?_⟩
      show sN.cash = c + _
      have hidx : n + 1 - (n + 1) % hp = n - n % hp := by omega
      rw [hidx, List.take_append_of_le_length (by omega)]
      exact hcash

/-- Counter/reference-price bookkeeping of one `Bonus1Strategy` day:
a settlement day zeroes the counter and records today's token1 price,
any other day increments the counter and keeps the reference price. -/
lemma bonus1_next_fields {sq : ℚ → ℚ} {pr : Params} {snap : Snapshot} {s s' : StrategyState}
    (h : Bonus1Strategy.next sq pr snap s = some s') :
    (s.bar_executed + 1 = holdingPeriod pr.lp_range ∧ s'.bar_executed = 0 ∧
      s'.last_hp_price = snap.token1_price) ∨
    (s.bar_executed + 1 ≠ holdingPeriod pr.lp_range ∧ s'.bar_executed = s.bar_executed + 1 ∧
      s'.last_hp_price = s.last_hp_price) := by
  rw [Bonus1Strategy.next] at h
  by_cases hset : s.bar_executed + 1 = holdingPeriod pr.lp_range
  · left
    refine ⟨hset, ?_⟩
    by_cases hgate : snap.token1_price > s.last_hp_price
    · rw [if_pos hgate] at h
      cases h
      rw [if_pos hset]
      exact ⟨rfl, rfl⟩
    · rw [if_neg hgate] at h
      rcases Option.map_eq_some'.mp h with ⟨fee, _, hs'⟩
      subst hs'
      rw [if_pos hset]
      exact ⟨rfl, rfl⟩
  · right
    refine ⟨hset, ?_⟩
    by_cases hgate : snap.token1_price > s.last_hp_price
    · rw [if_pos hgate] at h
      cases h
      rw [if_neg hset]
      exact ⟨rfl, rfl⟩
    · rw [if_neg hgate] at h
      rcases Option.map_eq_some'.mp h with ⟨fee, _, hs'⟩
      subst hs'
      rw [if_neg hset]
      exact ⟨rfl, rfl⟩

/-- A gate-closed (`token1_price > last_hp_price`) `Bonus1Strategy` day
touches neither cash nor the accrual list. -/
lemma bonus1_next_closed {sq : ℚ → ℚ} {pr : Params} {snap : Snapshot} {s s' : StrategyState}
    (hgate : snap.token1_price > s.last_hp_price)
    (h : Bonus1Strategy.next sq pr snap s = some s') :
    s'.cash = s.cash ∧ s'.calculated_fees = s.calculated_fees := by
  rw [Bonus1Strategy.next, if_pos hgate] at h
  cases h
  by_cases hset : s.bar_executed + 1 = holdingPeriod pr.lp_range
  · rw [if_pos hset]; exact ⟨rfl, rfl⟩
  · rw [if_neg hset]; exact ⟨rfl, rfl⟩

/-- A gate-open `Bonus1Strategy` day that completes appends exactly one
fee entry. -/
lemma bonus1_next_open {sq : ℚ → ℚ} {pr : Params} {snap : Snapshot} {s s' : StrategyState}
    (hgate : ¬ snap.token1_price > s.last_hp_price)
    (h : Bonus1Strategy.next sq pr snap s = some s') :
    ∃ fee, dailyFee sq pr snap s.cash = some fee ∧
      s'.calculated_fees = s.calculated_fees ++ [fee] := by
  rw [Bonus1Strategy.next, if_neg hgate] at h
  rcases Option.map_eq_some'.mp h with ⟨fee, hfee, hs'⟩
  subst hs'
  refine ⟨fee, hfee, ?_⟩
  by_cases hset : s.bar_executed + 1 = holdingPeriod pr.lp_range
  · rw [if_pos hset]
  · rw [if_neg hset]

/-- Run invariant of any step whose per-day bookkeeping is that of the
two trend-gated strategies: the day counter equals days `mod` the
holding period, and the reference price is the constructor value until
the first settlement and afterwards the token1 price of the latest
settlement day. -/
lemma gated_run_inv (step : Snapshot → StrategyState → Option StrategyState) (hp : ℕ)
    (hp0 : 0 < hp)
    (hstep : ∀ snap s s', step snap s = some s' →
      (s.bar_executed + 1 = hp ∧ s'.bar_executed = 0 ∧
        s'.last_hp_price = snap.token1_price) ∨
      (s.bar_executed + 1 ≠ hp ∧ s'.bar_executed = s.bar_executed + 1 ∧
        s'.last_hp_price = s.last_hp_price))
    (snaps : List Snapshot) (c r : ℚ) :
    ∀ n, n ≤ snaps.length → ∀ s, runDays step (snaps.take n) ⟨c, [], 0, r⟩ = some s →
      s.bar_executed = n % hp ∧
      (n < hp → s.last_hp_price = r) ∧
      (hp ≤ n → s.last_hp_price = (snaps.getD (n - n % hp - 1) default).token1_price) := by
  intro n
  induction n with
  | zero =>
    intro _ s hs
    rw [List.take_zero, runDays_nil] at hs
    cases hs
    refine ⟨by simp, fun _ => rfl, fun h => absurd h (by omega)⟩
  | succ n ih =>
    intro hn1 s hs
    have hn : n < snaps.length := Nat.lt_of_succ_le hn1
    rw [runDays_take_succ _ _ _ hn] at hs
    rcases Option.bind_eq_some.mp hs with ⟨sN, hsN, hstep'⟩
    obtain ⟨hbar, href0, href⟩ := ih (le_of_lt hn) sN hsN
    have hble : n % hp ≤ n := Nat.mod_le n hp
    rcases hstep _ _ _ hstep' with ⟨hset, hbar', href'⟩ | ⟨hset, hbar', href'⟩
    · have hmod : (n + 1) % hp = 0 := succ_mod_eq_zero (hbar ▸ hset)
      refine ⟨by rw [hbar', hmod], fun hlt => absurd hlt (by omega), fun _ => ?_⟩
      rw [href', hmod, Nat.sub_zero, Nat.add_sub_cancel]
      rw [List.getD_eq_getElem _ _ hn, List.get_eq_getElem]
    · have hmod : (n + 1) % hp = n % hp + 1 := succ_mod_eq hp0 (hbar ▸ hset)
      refine ⟨by rw [hbar', hbar, hmod], fun hlt => ?_, fun hge => ?_⟩
      · rw [href', href0 (by omega)]
      · have hpn : hp ≤ n := by
          rcases Nat.lt_or_ge n hp with hlt | hge'
          · exfalso
            have := Nat.mod_eq_of_lt hlt
            omega
          · exact hge'
        have hidx : n + 1 - (n + 1) % hp - 1 = n - n % hp - 1 := by omega
        rw [href', hidx]
        exact href hpn

/-- Counter/reference-price bookkeeping of one `Bonus2Strategy` day. -/
lemma bonus2_next_fields {sq : ℚ → ℚ} {pr : Params} {snap : Snapshot} {s s' : StrategyState}
    (h : Bonus2Strategy.next sq pr snap s = some s') :
    (s.bar_executed + 1 = holdingPeriod pr.lp_range ∧ s'.bar_executed = 0 ∧
      s'.last_hp_price = snap.token1_price) ∨
    (s.bar_executed + 1 ≠ holdingPeriod pr.lp_range ∧ s'.bar_executed = s.bar_executed + 1 ∧
      s'.last_hp_price = s.last_hp_price) := by
  rw [Bonus2Strategy.next] at h
  by_cases hset : s.bar_executed + 1 = holdingPeriod pr.lp_range
  · left
    refine ⟨hset, ?_⟩
    by_cases hgate : snap.token1_price > s.last_hp_price
    · rw [if_pos hgate] at h
      cases h
      rw [if_pos hset]
      exact ⟨rfl, rfl⟩
    · rw [if_neg hgate] at h
      rcases Option.map_eq_some'.mp h with ⟨fee, _, hs'⟩
      subst hs'
      rw [if_pos hset]
      exact ⟨rfl, rfl⟩
  · right
    refine ⟨hset, ?_⟩
    by_cases hgate : snap.token1_price > s.last_hp_price
    · rw [if_pos hgate] at h
      cases h
      rw [if_neg hset]
      exact ⟨rfl, rfl⟩
    · rw [if_neg hgate] at h
      rcases Option.map_eq_some'.mp h with ⟨fee, _, hs'⟩
      subst hs'
      rw [if_neg hset]
      exact ⟨rfl, rfl⟩

/-- A gate-closed `Bonus2Strategy` day touches neither cash nor the
accrual list (in particular, no mint or burn cost is deducted). -/
lemma bonus2_next_closed {sq : ℚ → ℚ} {pr : Params} {snap : Snapshot} {s s' : StrategyState}
    (hgate : snap.token1_price > s.last_hp_price)
    (h : Bonus2Strategy.next sq pr snap s = some s') :
    s'.cash = s.cash ∧ s'.calculated_fees = s.calculated_fees := by
  rw [Bonus2Strategy.next, if_pos hgate] at h
  cases h
  by_cases hset : s.bar_executed + 1 = holdingPeriod pr.lp_range
  · rw [if_pos hset]; exact ⟨rfl, rfl⟩
  · rw [if_neg hset]; exact ⟨rfl, rfl⟩

/-- A gate-open `Bonus2Strategy` day that completes appends exactly one
fee entry. -/
lemma bonus2_next_open {sq : ℚ → ℚ} {pr : Params} {snap : Snapshot} {s s' : StrategyState}
    (hgate : ¬ snap.token1_price > s.last_hp_price)
    (h : Bonus2Strategy.next sq pr snap s = some s') :
    ∃ fee, dailyFee sq pr snap s.cash = some fee ∧
      s'.calculated_fees = s.calculated_fees ++ [fee] := by
  rw [Bonus2Strategy.next, if_neg hgate] at h
  rcases Option.map_eq_some'.mp h with ⟨fee, hfee, hs'⟩
  subst hs'
  refine ⟨fee, hfee, ?_⟩
  by_cases hset : s.bar_executed + 1 = holdingPeriod pr.lp_range
  · rw [if_pos hset]
  · rw [if_neg hset]

/-! ## Claims -/

/-- C1 (counterexample): at the concrete input
`sqrt_ratio_ax96 = 1 < sqrt_ratio_x96 = 2 < sqrt_ratio_bx96 = 3` — the
current sqrt price strictly inside the range — `get_liquidity_for_amounts`
does not return the joint minimum of the two single-sided estimates the
claim requires for the inside-range case; it returns the amount1-only
estimate over the full range. -/
theorem get_liquidity_for_amounts_claim_cex :
    ¬ (get_liquidity_for_amounts 2 1 3 1 0 1 0 =
      min (get_liquidity_for_amount0 2 3 (expand_decimals 1 0))
        (get_liquidity_for_amount1 1 2 (expand_decimals 1 0))) := by
  norm_num [get_liquidity_for_amounts, get_liquidity_for_amount0,
    get_liquidity_for_amount1, mul_div, expand_decimals, Q96, min_def]

/-- C1 (amended): `get_liquidity_for_amounts` has a two-way branch.
When `sqrt_ratio_x96 ≤ sqrt_ratio_ax96` (at or below the range) the
result is the minimum of the amount0 estimate over
`(sqrt_ratio_x96, sqrt_ratio_bx96)` and the amount1 estimate over
`(sqrt_ratio_ax96, sqrt_ratio_x96)`; otherwise — strictly inside the
range and at or above the upper bound alike — the result is the
single-sided amount1 estimate over the full range.  Amounts are
decimal-expanded first. -/
theorem get_liquidity_for_amounts_branches (x96 a96 b96 amount0 : ℚ) (t0 : ℤ)
    (amount1 : ℚ) (t1 : ℤ) :
    (x96 ≤ a96 → get_liquidity_for_amounts x96 a96 b96 amount0 t0 amount1 t1 =
      min (get_liquidity_for_amount0 x96 b96 (expand_decimals amount0 t0))
        (get_liquidity_for_amount1 a96 x96 (expand_decimals amount1 t1))) ∧
    (a96 < x96 → get_liquidity_for_amounts x96 a96 b96 amount0 t0 amount1 t1 =
      get_liquidity_for_amount1 a96 b96 (expand_decimals amount1 t1)) := by
  constructor
  · intro h
    simp only [get_liquidity_for_amounts]
    rw [if_pos h]
  · intro h
    simp only [get_liquidity_for_amounts]
    rw [if_neg (not_le.mpr h)]

/-- C1 (witness): both branch hypotheses hold at concrete inputs. -/
theorem get_liquidity_for_amounts_branches_witness :
    ((1 : ℚ) ≤ 2 ∧ get_liquidity_for_amounts 1 2 3 5 0 7 0 =
      min (get_liquidity_for_amount0 1 3 (expand_decimals 5 0))
        (get_liquidity_for_amount1 2 1 (expand_decimals 7 0))) ∧
    ((2 : ℚ) < 3 ∧ get_liquidity_for_amounts 3 2 4 5 0 7 0 =
      get_liquidity_for_amount1 2 4 (expand_decimals 7 0)) :=
  ⟨⟨by norm_num, (get_liquidity_for_amounts_branches 1 2 3 5 0 7 0).1 (by norm_num)⟩,
   ⟨by norm_num, (get_liquidity_for_amounts_branches 3 2 4 5 0 7 0).2 (by norm_num)⟩⟩

/-- C4: `calculate_fee` fails (the `ZeroDivisionError` of the source,
embedded as `none`) exactly when pool liquidity plus delta liquidity is
zero, and on every other input returns
`fee_tier_percentage * volume * delta_liquidity / (liquidity + delta_liquidity)`. -/
theorem calculate_fee_div_zero (d L v t : ℚ) :
    (calculate_fee d L v t = none ↔ L + d = 0) ∧
    (L + d ≠ 0 →
      calculate_fee d L v t = some (get_tier_percentage t * v * d / (L + d))) := by
  constructor
  · constructor
    · intro h
      by_contra hne
      rw [calculate_fee, if_neg hne] at h
      exact Option.some_ne_none _ h
    · intro h
      rw [calculate_fee, if_pos h]
  · intro h
    rw [calculate_fee, if_neg h, mul_div_assoc]

/-- C4 (witness): a nonzero denominator yields the formula value, a
zero denominator yields the failure. -/
theorem calculate_fee_div_zero_witness :
    ((2 : ℚ) + 1 ≠ 0 ∧
      calculate_fee 1 2 3 3000 = some (get_tier_percentage 3000 * 3 * 1 / (2 + 1))) ∧
    calculate_fee 1 (-1) 3 3000 = none :=
  ⟨⟨by norm_num, (calculate_fee_div_zero 1 2 3 3000).2 (by norm_num)⟩,
   (calculate_fee_div_zero 1 (-1) 3 3000).1.mpr (by norm_num)⟩

/-- C7: the holding period is a pure function of the LP range computed
once at construction (it lives in the immutable parameters, never in
the mutated state), always lies in {1, 7, 30}, and resolves magnitude
0.10 to 1 day, 0.20 to 7 days, 0.30 to 30 days. -/
theorem holding_period_values :
    (∀ lp : ℚ × ℚ, holdingPeriod lp = 1 ∨ holdingPeriod lp = 7 ∨ holdingPeriod lp = 30) ∧
    holdingPeriod (10 / 100, 10 / 100) = 1 ∧
    holdingPeriod (20 / 100, 20 / 100) = 7 ∧
    holdingPeriod (30 / 100, 30 / 100) = 30 := by
  refine ⟨fun lp => ?_, ?_, ?_, ?_⟩
  · unfold holdingPeriod
    split_ifs <;> simp
  · rw [holdingPeriod, show |(10 : ℚ) / 100| = 10 / 100 from abs_of_nonneg (by norm_num)]
    norm_num
  · rw [holdingPeriod, show |(20 : ℚ) / 100| = 20 / 100 from abs_of_nonneg (by norm_num)]
    norm_num
  · rw [holdingPeriod, show |(30 : ℚ) / 100| = 30 / 100 from abs_of_nonneg (by norm_num)]
    norm_num

/-- C8: the fee-tier table maps 100, 500, 3000, 10000 to 0.0001,
0.0005, 0.003, 0.01 and every other tier to 0 without failing. -/
theorem tier_percentage_table :
    get_tier_percentage 100 = 1 / 10000 ∧
    get_tier_percentage 500 = 5 / 10000 ∧
    get_tier_percentage 3000 = 3 / 1000 ∧
    get_tier_percentage 10000 = 1 / 100 ∧
    (∀ t : ℚ, t ≠ 100 → t ≠ 500 → t ≠ 3000 → t ≠ 10000 → get_tier_percentage t = 0) := by
  refine ⟨?_, ?_, ?_, ?_, fun t h1 h2 h3 h4 => ?_⟩
  · norm_num [get_tier_percentage]
  · norm_num [get_tier_percentage]
  · norm_num [get_tier_percentage]
  · norm_num [get_tier_percentage]
  · rw [get_tier_percentage, if_neg h1, if_neg h2, if_neg h3, if_neg h4]

/-- C8 (witness): an unrecognized tier resolves to zero. -/
theorem tier_percentage_table_witness :
    (7 : ℚ) ≠ 100 ∧ get_tier_percentage 7 = 0 :=
  ⟨by norm_num,
   tier_percentage_table.2.2.2.2 7 (by norm_num) (by norm_num) (by norm_num) (by norm_num)⟩

/-- C9: with the other arguments fixed at positive values,
`calculate_fee` is monotone (non-strictly) increasing in volume and in
delta liquidity, and monotone decreasing in pool liquidity. -/
theorem calculate_fee_monotone (d L v t : ℚ) (hd : 0 < d) (hL : 0 < L) (hv : 0 < v)
    (ht : 0 < t) :
    (∀ v' f f', v ≤ v' → calculate_fee d L v t = some f →
      calculate_fee d L v' t = some f' → f ≤ f') ∧
    (∀ d' f f', 0 < d' → d ≤ d' → calculate_fee d L v t = some f →
      calculate_fee d' L v t = some f' → f ≤ f') ∧
    (∀ L' f f', 0 < L' → L ≤ L' → calculate_fee d L v t = some f →
      calculate_fee d L' v t = some f' → f' ≤ f) := by
  have htp : 0 ≤ get_tier_percentage t := get_tier_percentage_nonneg t
  have hval : ∀ {d' L' v' : ℚ}, 0 < L' + d' → ∀ {f : ℚ},
      calculate_fee d' L' v' t = some f →
      f = get_tier_percentage t * v' * (d' / (L' + d')) := by
    intro d' L' v' hpos f h
    rw [calculate_fee, if_neg (ne_of_gt hpos)] at h
    exact (Option.some.inj h).symm
  refine ⟨fun v' f f' hvv' hf hf' => ?_, fun d' f f' hd' hdd' hf hf' => ?_,
    fun L' f f' hL' hLL' hf hf' => ?_⟩
  · rw [hval (by linarith) hf, hval (by linarith) hf']
    exact mul_le_mul_of_nonneg_right (mul_le_mul_of_nonneg_left hvv' htp)
      (div_nonneg hd.le (by linarith))
  · rw [hval (by linarith) hf, hval (by linarith) hf']
    apply mul_le_mul_of_nonneg_left ?_ (mul_nonneg htp hv.le)
    rw [div_le_div_iff₀ (by linarith) (by linarith)]
    nlinarith
  · rw [hval (by linarith) hf, hval (by linarith) hf']
    apply mul_le_mul_of_nonneg_left ?_ (mul_nonneg htp hv.le)
    rw [div_le_div_iff₀ (by linarith) (by linarith)]
    nlinarith

/-- C9 (witness): the three monotonicities at concrete inputs
(delta 1, pool 1, volume 1, tier 3000; raising volume to 2, delta to 3,
pool to 3). -/
theorem calculate_fee_monotone_witness :
    ((3 : ℚ) / 2000 ≤ 3 / 1000) ∧ ((3 : ℚ) / 2000 ≤ 9 / 4000) ∧
    ((3 : ℚ) / 4000 ≤ 3 / 2000) :=
  ⟨(calculate_fee_monotone 1 1 1 3000 (by norm_num) (by norm_num) (by norm_num)
      (by norm_num)).1 2 (3 / 2000) (3 / 1000) (by norm_num)
      (by norm_num [calculate_fee, get_tier_percentage])
      (by norm_num [calculate_fee, get_tier_percentage]),
   (calculate_fee_monotone 1 1 1 3000 (by norm_num) (by norm_num) (by norm_num)
      (by norm_num)).2.1 3 (3 / 2000) (9 / 4000) (by norm_num) (by norm_num)
      (by norm_num [calculate_fee, get_tier_percentage])
      (by norm_num [calculate_fee, get_tier_percentage]),
   (calculate_fee_monotone 1 1 1 3000 (by norm_num) (by norm_num) (by norm_num)
      (by norm_num)).2.2 3 (3 / 2000) (3 / 4000) (by norm_num) (by norm_num)
      (by norm_num [calculate_fee, get_tier_percentage])
      (by norm_num [calculate_fee, get_tier_percentage])⟩

/-- C5: for a positive target deposit, a range strictly containing the
current price and positive USD prices, both returned token amounts are
non-negative, each leg's USD value lies in `[0, target]`, and the
combined USD value does not exceed the target.  The square-root
hypotheses pin `sq` to the mathematical square root at the three prices
used. -/
theorem token_amounts_clamped (sq : ℚ → ℚ) (p pl pu px py T : ℚ)
    (hsp : sq p ^ 2 = p) (hsp0 : 0 ≤ sq p)
    (hspl : sq pl ^ 2 = pl) (hspl0 : 0 ≤ sq pl)
    (hspu : sq pu ^ 2 = pu) (hspu0 : 0 ≤ sq pu)
    (hlow : pl < p) (hup : p < pu) (hpx : 0 < px) (hpy : 0 < py) (hT : 0 < T) :
    0 ≤ (get_token_amounts_from_deposit_amounts sq p pl pu px py T).1 ∧
    0 ≤ (get_token_amounts_from_deposit_amounts sq p pl pu px py T).2 ∧
    0 ≤ (get_token_amounts_from_deposit_amounts sq p pl pu px py T).1 * px ∧
    (get_token_amounts_from_deposit_amounts sq p pl pu px py T).1 * px ≤ T ∧
    0 ≤ (get_token_amounts_from_deposit_amounts sq p pl pu px py T).2 * py ∧
    (get_token_amounts_from_deposit_amounts sq p pl pu px py T).2 * py ≤ T ∧
    (get_token_amounts_from_deposit_amounts sq p pl pu px py T).1 * px
      + (get_token_amounts_from_deposit_amounts sq p pl pu px py T).2 * py ≤ T := by
  have hpl0 : 0 ≤ pl := hspl ▸ sq_nonneg (sq pl)
  have hp0 : 0 < p := lt_of_le_of_lt hpl0 hlow
  have hsp_pos : 0 < sq p := by nlinarith [hsp, hp0, hsp0]
  have hspu_pos : 0 < sq pu := by nlinarith [hspu, hspu0, hp0, hup]
  have hsl_lt : sq pl < sq p := by nlinarith [hspl, hsp, hlow, hspl0, hsp0]
  have hsu_gt : sq p < sq pu := by nlinarith [hsp, hspu, hup, hsp0, hspu0]
  have hinv : 0 < 1 / sq p - 1 / sq pu :=
    sub_pos.mpr (one_div_lt_one_div_of_lt hsp_pos hsu_gt)
  have hD : 0 < (sq p - sq pl) * py + (1 / sq p - 1 / sq pu) * px :=
    add_pos (mul_pos (sub_pos.mpr hsl_lt) hpy) (mul_pos hinv hpx)
  have hdl : 0 < T / ((sq p - sq pl) * py + (1 / sq p - 1 / sq pu) * px) := div_pos hT hD
  have hdy0 : 0 < T / ((sq p - sq pl) * py + (1 / sq p - 1 / sq pu) * px) * (sq p - sq pl) :=
    mul_pos hdl (sub_pos.mpr hsl_lt)
  have hdx0 : 0 < T / ((sq p - sq pl) * py + (1 / sq p - 1 / sq pu) * px)
      * (1 / sq p - 1 / sq pu) := mul_pos hdl hinv
  have hsum : T / ((sq p - sq pl) * py + (1 / sq p - 1 / sq pu) * px) * (sq p - sq pl) * py
      + T / ((sq p - sq pl) * py + (1 / sq p - 1 / sq pu) * px) * (1 / sq p - 1 / sq pu) * px
      = T := by
    have hr : T / ((sq p - sq pl) * py + (1 / sq p - 1 / sq pu) * px) * (sq p - sq pl) * py
        + T / ((sq p - sq pl) * py + (1 / sq p - 1 / sq pu) * px) * (1 / sq p - 1 / sq pu) * px
        = T / ((sq p - sq pl) * py + (1 / sq p - 1 / sq pu) * px)
          * ((sq p - sq pl) * py + (1 / sq p - 1 / sq pu) * px) := by ring
    rw [hr, div_mul_cancel₀ _ (ne_of_gt hD)]
  have hylt : T / ((sq p - sq pl) * py + (1 / sq p - 1 / sq pu) * px) * (sq p - sq pl) * py
      < T := by nlinarith [mul_pos hdx0 hpx]
  have hxlt : T / ((sq p - sq pl) * py + (1 / sq p - 1 / sq pu) * px)
      * (1 / sq p - 1 / sq pu) * px < T := by nlinarith [mul_pos hdy0 hpy]
  have hy1 : ¬ (T / ((sq p - sq pl) * py + (1 / sq p - 1 / sq pu) * px) * (sq p - sq pl) * py
      < 0) := not_lt.mpr (mul_pos hdy0 hpy).le
  have hy2 : ¬ (T / ((sq p - sq pl) * py + (1 / sq p - 1 / sq pu) * px) * (sq p - sq pl) * py
      > T) := not_lt.mpr hylt.le
  have hx1 : ¬ (T / ((sq p - sq pl) * py + (1 / sq p - 1 / sq pu) * px)
      * (1 / sq p - 1 / sq pu) * px < 0) := not_lt.mpr (mul_pos hdx0 hpx).le
  have hx2 : ¬ (T / ((sq p - sq pl) * py + (1 / sq p - 1 / sq pu) * px)
      * (1 / sq p - 1 / sq pu) * px > T) := not_lt.mpr hxlt.le
  have heval : get_token_amounts_from_deposit_amounts sq p pl pu px py T =
      (T / ((sq p - sq pl) * py + (1 / sq p - 1 / sq pu) * px) * (1 / sq p - 1 / sq pu),
       T / ((sq p - sq pl) * py + (1 / sq p - 1 / sq pu) * px) * (sq p - sq pl)) := by
    simp only [get_token_amounts_from_deposit_amounts]
    rw [if_neg hy1, if_neg hy2, if_neg hx1, if_neg hx2]
  rw [heval]
  refine ⟨hdx0.le, hdy0.le, (mul_pos hdx0 hpx).le, hxlt.le, (mul_pos hdy0 hpy).le, hylt.le,
    by linarith [hsum]⟩

/-- C5 (witness): the perfect-square range 1 < 4 < 9 with unit USD
prices and target 100. -/
theorem token_amounts_clamped_witness :
    0 ≤ (get_token_amounts_from_deposit_amounts sqrtTable 4 1 9 1 1 100).1 ∧
    0 ≤ (get_token_amounts_from_deposit_amounts sqrtTable 4 1 9 1 1 100).2 ∧
    0 ≤ (get_token_amounts_from_deposit_amounts sqrtTable 4 1 9 1 1 100).1 * 1 ∧
    (get_token_amounts_from_deposit_amounts sqrtTable 4 1 9 1 1 100).1 * 1 ≤ 100 ∧
    0 ≤ (get_token_amounts_from_deposit_amounts sqrtTable 4 1 9 1 1 100).2 * 1 ∧
    (get_token_amounts_from_deposit_amounts sqrtTable 4 1 9 1 1 100).2 * 1 ≤ 100 ∧
    (get_token_amounts_from_deposit_amounts sqrtTable 4 1 9 1 1 100).1 * 1
      + (get_token_amounts_from_deposit_amounts sqrtTable 4 1 9 1 1 100).2 * 1 ≤ 100 :=
  token_amounts_clamped sqrtTable 4 1 9 1 1 100
    (by norm_num [sqrtTable]) (by norm_num [sqrtTable]) (by norm_num [sqrtTable])
    (by norm_num [sqrtTable]) (by norm_num [sqrtTable]) (by norm_num [sqrtTable])
    (by norm_num) (by norm_num) (by norm_num) (by norm_num) (by norm_num)

/-- C6 (counterexample): with swap gas 1, gas price `11e14` wei and
token1 price 1, the exact conversion cost is `0.0011`, but the `start`
hook deducts `round(0.0011, 2) = 0`: the deduction is not equal to
`swap_gas_units * gas_price_in_ether * price_usd_token1`. -/
theorem setup_cost_claim_cex :
    startCash (prT (1 / 2)) (snapT 0 7 5 1 1 (11 * 10 ^ 14)) 100 = 100 ∧
    (100 : ℚ) - (prT (1 / 2)).gas_for_swap_event * weiToEther (11 * 10 ^ 14) * 1 ≠ 100 := by
  constructor
  · rw [startCash, round2, weiToEther]
    norm_num [prT, snapT, round_eq]
  · rw [weiToEther]
    norm_num [prT]

/-- C6 (amended): every run of every policy applies exactly one setup
deduction to cash before the first simulated day — the state handed to
day 1 is the fresh state whose cash is the starting cash minus
`round(swap_gas_units * (wei / 1e18) * price_usd_token1, 2)` of the
first snapshot — and the rounded deduction differs from the exact
product by at most half a cent. -/
theorem setup_cost_rounded (sq : ℚ → ℚ) (pr : Params) (s0 : Snapshot)
    (rest : List Snapshot) (cash : ℚ) :
    SimpleStrategy.run sq pr (s0 :: rest) cash
      = runDays (SimpleStrategy.next sq pr) (s0 :: rest)
        (initState (cash - round2 (pr.gas_for_swap_event * weiToEther s0.wei
          * s0.token1_price))) ∧
    Bonus1Strategy.run sq pr (s0 :: rest) cash
      = runDays (Bonus1Strategy.next sq pr) (s0 :: rest)
        (initState (cash - round2 (pr.gas_for_swap_event * weiToEther s0.wei
          * s0.token1_price))) ∧
    Bonus2Strategy.run sq pr (s0 :: rest) cash
      = runDays (Bonus2Strategy.next sq pr) (s0 :: rest)
        (initState (cash - round2 (pr.gas_for_swap_event * weiToEther s0.wei
          * s0.token1_price))) ∧
    |round2 (pr.gas_for_swap_event * weiToEther s0.wei * s0.token1_price)
      - pr.gas_for_swap_event * weiToEther s0.wei * s0.token1_price| ≤ 1 / 200 := by
  refine ⟨rfl, rfl, rfl, ?_⟩
  set C := pr.gas_for_swap_event * weiToEther s0.wei * s0.token1_price with hC
  rw [round2]
  have hb : |((round (100 * C) : ℤ) : ℚ) - 100 * C| ≤ 1 / 2 := by
    rw [abs_sub_comm]
    exact abs_sub_round (100 * C)
  have h2 : ((round (100 * C) : ℤ) : ℚ) / 100 - C
      = (((round (100 * C) : ℤ) : ℚ) - 100 * C) / 100 := by ring
  rw [h2, abs_div, show |(100 : ℚ)| = 100 from abs_of_pos (by norm_num)]
  linarith [hb]

/-- C2 (counterexample): a strictly increasing two-day price sequence
(100 then 200) under `Bonus1Strategy` with holding period 1.  On day 1
the reference price is still the sentinel `1e20`, so the gate is open
and a fee IS appended: the accrual list ends with one entry, not zero. -/
theorem trend_gate_claim_cex :
    [snapT 0 7 5 1 100 0, snapT 0 7 5 1 200 0].Pairwise
      (fun a b => a.token1_price < b.token1_price) ∧
    ((runDays (Bonus1Strategy.next sqrt0 (prT (1 / 10)))
        [snapT 0 7 5 1 100 0, snapT 0 7 5 1 200 0] (initState 100)).map
      fun s => s.calculated_fees.length) = some 1 := by
  constructor
  · simp only [List.pairwise_cons, List.mem_singleton, List.mem_cons, List.not_mem_nil,
      List.Pairwise.nil, and_true]
    norm_num [snapT]
  · norm_num [runDays, Bonus1Strategy.next, initState, hp_tenth, sliceSum,
      dailyFee, prT, snapT, sqrt0, tick_to_price, TICK_BASE, expand_decimals,
      get_sqrt_price_x96, get_token_amounts_from_deposit_amounts,
      get_liquidity_for_amounts, get_liquidity_for_amount0, get_liquidity_for_amount1,
      mul_div, Q96, calculate_fee, get_tier_percentage]

/-- C2 (amended): under a strictly increasing token1 price sequence the
trend-gated policies do stake through the first holding window (the
sentinel reference price is `1e20`), but once the first settlement has
recorded a real reference price the gate stays closed: from day
`holding_period + 1` on, neither policy appends a fee or changes cash
(in particular no mint/burn cost is deducted).  The start state is the
post-setup state: empty accrual list, zero day counter. -/
theorem trend_gate_flat_after_first_settlement (sq : ℚ → ℚ) (pr : Params)
    (snaps : List Snapshot) (c r : ℚ)
    (hmono : snaps.Pairwise (fun a b => a.token1_price < b.token1_price))
    (n : ℕ) (hn : holdingPeriod pr.lp_range ≤ n) (hlen : n < snaps.length) :
    (∀ sN sN1,
      runDays (Bonus1Strategy.next sq pr) (snaps.take n) ⟨c, [], 0, r⟩ = some sN →
      runDays (Bonus1Strategy.next sq pr) (snaps.take (n + 1)) ⟨c, [], 0, r⟩ = some sN1 →
      sN1.cash = sN.cash ∧ sN1.calculated_fees = sN.calculated_fees) ∧
    (∀ sN sN1,
      runDays (Bonus2Strategy.next sq pr) (snaps.take n) ⟨c, [], 0, r⟩ = some sN →
      runDays (Bonus2Strategy.next sq pr) (snaps.take (n + 1)) ⟨c, [], 0, r⟩ = some sN1 →
      sN1.cash = sN.cash ∧ sN1.calculated_fees = sN.calculated_fees) := by
  have hp0 : 0 < holdingPeriod pr.lp_range := holdingPeriod_pos pr.lp_range
  have hble : n % holdingPeriod pr.lp_range ≤ n := Nat.mod_le n _
  have hm_lt : n - n % holdingPeriod pr.lp_range - 1 < n := by omega
  have hmlen : n - n % holdingPeriod pr.lp_range - 1 < snaps.length := lt_trans hm_lt hlen
  have hprice : (snaps.getD (n - n % holdingPeriod pr.lp_range - 1) default).token1_price
      < (snaps.get ⟨n, hlen⟩).token1_price := by
    have hpw := List.pairwise_iff_get.mp hmono
      ⟨n - n % holdingPeriod pr.lp_range - 1, hmlen⟩ ⟨n, hlen⟩ (Fin.mk_lt_mk.mpr hm_lt)
    rw [List.getD_eq_getElem _ _ hmlen]
    simpa [List.get_eq_getElem] using hpw
  constructor
  · intro sN sN1 h1 h2
    rw [runDays_take_succ _ _ _ hlen] at h2
    rcases Option.bind_eq_some.mp h2 with ⟨sM, hM, hstep⟩
    rw [h1] at hM
    cases Option.some.inj hM
    obtain ⟨-, -, href⟩ := gated_run_inv (Bonus1Strategy.next sq pr)
      (holdingPeriod pr.lp_range) hp0 (fun _ _ _ h => bonus1_next_fields h)
      snaps c r n (le_of_lt hlen) sN h1
    have hgate : (snaps.get ⟨n, hlen⟩).token1_price > sN.last_hp_price := by
      rw [href hn]
      exact hprice
    exact bonus1_next_closed hgate hstep
  · intro sN sN1 h1 h2
    rw [runDays_take_succ _ _ _ hlen] at h2
    rcases Option.bind_eq_some.mp h2 with ⟨sM, hM, hstep⟩
    rw [h1] at hM
    cases Option.some.inj hM
    obtain ⟨-, -, href⟩ := gated_run_inv (Bonus2Strategy.next sq pr)
      (holdingPeriod pr.lp_range) hp0 (fun _ _ _ h => bonus2_next_fields h)
      snaps c r n (le_of_lt hlen) sN h1
    have hgate : (snaps.get ⟨n, hlen⟩).token1_price > sN.last_hp_price := by
      rw [href hn]
      exact hprice
    exact bonus2_next_closed hgate hstep

/-- C2 (witness): the two-day strictly increasing run of the
counterexample, at `n = 1` (the day after the first settlement):
cash and the accrual list are unchanged on day 2. -/
theorem trend_gate_flat_witness :
    (StrategyState.mk 100 [0] 0 200).cash = (StrategyState.mk 100 [0] 0 100).cash ∧
    (StrategyState.mk 100 [0] 0 200).calculated_fees
      = (StrategyState.mk 100 [0] 0 100).calculated_fees :=
  (trend_gate_flat_after_first_settlement sqrt0 (prT (1 / 10))
    [snapT 0 7 5 1 100 0, snapT 0 7 5 1 200 0] 100 (10 ^ 20)
    (by
      simp only [List.pairwise_cons, List.mem_singleton, List.mem_cons, List.not_mem_nil,
        List.Pairwise.nil, and_true]
      norm_num [snapT])
    1 (by norm_num [prT, hp_tenth]) (by norm_num)).1
    ⟨100, [0], 0, 100⟩ ⟨100, [0], 0, 200⟩
    (by norm_num [runDays, Bonus1Strategy.next, initState, hp_tenth, sliceSum,
      dailyFee, prT, snapT, sqrt0, tick_to_price, TICK_BASE, expand_decimals,
      get_sqrt_price_x96, get_token_amounts_from_deposit_amounts,
      get_liquidity_for_amounts, get_liquidity_for_amount0, get_liquidity_for_amount1,
      mul_div, Q96, calculate_fee, get_tier_percentage])
    (by norm_num [runDays, Bonus1Strategy.next, initState, hp_tenth, sliceSum,
      dailyFee, prT, snapT, sqrt0, tick_to_price, TICK_BASE, expand_decimals,
      get_sqrt_price_x96, get_token_amounts_from_deposit_amounts,
      get_liquidity_for_amounts, get_liquidity_for_amount0, get_liquidity_for_amount1,
      mul_div, Q96, calculate_fee, get_tier_percentage])

/-- C3 (counterexample): a two-day always-stake run with holding period
1.  After day 2 the accrual list holds 2 entries — more than the
holding period — because a settlement resets the day counter but never
clears the list. -/
theorem accrual_buffer_claim_cex :
    holdingPeriod (prT (1 / 10)).lp_range = 1 ∧
    ((runDays (SimpleStrategy.next sqrt0 (prT (1 / 10)))
        [snapT 0 7 5 1 100 0, snapT 0 7 5 1 200 0] (initState 100)).map
      fun s => s.calculated_fees.length) = some 2 := by
  constructor
  · norm_num [prT, hp_tenth]
  · norm_num [runDays, SimpleStrategy.next, initState, hp_tenth, sliceSum,
      dailyFee, prT, snapT, sqrt0, tick_to_price, TICK_BASE, expand_decimals,
      get_sqrt_price_x96, get_token_amounts_from_deposit_amounts,
      get_liquidity_for_amounts, get_liquidity_for_amount0, get_liquidity_for_amount1,
      mul_div, Q96, calculate_fee, get_tier_percentage]

/-- C3 (amended): the accrual list is never cleared — under the
always-stake policy it holds exactly one entry per day run — while the
day counter is the day count modulo the holding period (so it stays
below the holding period between days and reaches it only transiently
inside a day).  Settlements credit exactly the fees accrued since the
previous settlement: under the always-stake policy, cash equals the
starting cash plus the sum of the accrual entries of all completed
windows.  The counter invariant holds for the trend-gated policies as
well. -/
theorem accrual_buffer_invariant (sq : ℚ → ℚ) (pr : Params) (snaps : List Snapshot)
    (c r : ℚ) :
    (∀ s, runDays (SimpleStrategy.next sq pr) snaps ⟨c, [], 0, r⟩ = some s →
      s.calculated_fees.length = snaps.length ∧
      s.bar_executed = snaps.length % holdingPeriod pr.lp_range ∧
      s.cash = c + (s.calculated_fees.take
        (snaps.length - snaps.length % holdingPeriod pr.lp_range)).sum) ∧
    (∀ s, runDays (Bonus1Strategy.next sq pr) snaps ⟨c, [], 0, r⟩ = some s →
      s.bar_executed = snaps.length % holdingPeriod pr.lp_range) ∧
    (∀ s, runDays (Bonus2Strategy.next sq pr) snaps ⟨c, [], 0, r⟩ = some s →
      s.bar_executed = snaps.length % holdingPeriod pr.lp_range) := by
  have hp0 : 0 < holdingPeriod pr.lp_range := holdingPeriod_pos pr.lp_range
  refine ⟨fun s hs => ?_, fun s hs => ?_, fun s hs => ?_⟩
  · exact simple_run_inv sq pr snaps c r snaps.length le_rfl s
      (by rwa [List.take_length])
  · exact (gated_run_inv (Bonus1Strategy.next sq pr) (holdingPeriod pr.lp_range) hp0
      (fun _ _ _ h => bonus1_next_fields h) snaps c r snaps.length le_rfl s
      (by rwa [List.take_length])).1
  · exact (gated_run_inv (Bonus2Strategy.next sq pr) (holdingPeriod pr.lp_range) hp0
      (fun _ _ _ h => bonus2_next_fields h) snaps c r snaps.length le_rfl s
      (by rwa [List.take_length])).1

/-- C3 (witness): a one-day always-stake run with holding period 30:
one accrual entry, counter 1, cash unchanged (window not settled). -/
theorem accrual_buffer_invariant_witness :
    (StrategyState.mk 100 [0] 1 (10 ^ 20)).calculated_fees.length
      = [snapT 0 7 5 1 100 0].length ∧
    (StrategyState.mk 100 [0] 1 (10 ^ 20)).bar_executed
      = [snapT 0 7 5 1 100 0].length % holdingPeriod (prT (1 / 2)).lp_range ∧
    (StrategyState.mk 100 [0] 1 (10 ^ 20)).cash
      = 100 + ((StrategyState.mk 100 [0] 1 (10 ^ 20)).calculated_fees.take
        ([snapT 0 7 5 1 100 0].length
          - [snapT 0 7 5 1 100 0].length % holdingPeriod (prT (1 / 2)).lp_range)).sum :=
  (accrual_buffer_invariant sqrt0 (prT (1 / 2)) [snapT 0 7 5 1 100 0] 100 (10 ^ 20)).1
    ⟨100, [0], 1, 10 ^ 20⟩
    (by norm_num [runDays, SimpleStrategy.next, hp_half, sliceSum,
      dailyFee, prT, snapT, sqrt0, tick_to_price, TICK_BASE, expand_decimals,
      get_sqrt_price_x96, get_token_amounts_from_deposit_amounts,
      get_liquidity_for_amounts, get_liquidity_for_amount0, get_liquidity_for_amount1,
      mul_div, Q96, calculate_fee, get_tier_percentage])

/-- C10 (counterexample): the claim as stated fails when a token1 price
exceeds the `1e20` sentinel: on day 1 — before any settlement — with
price `2e20` the gate is closed and the policy does not stake (no entry
appended, counter 1). -/
theorem staking_gate_sentinel_cex :
    (snapT 0 7 5 1 (2 * 10 ^ 20) 0).token1_price > (10 : ℚ) ^ 20 ∧
    ((runDays (Bonus1Strategy.next sqrt0 (prT (1 / 2)))
        [snapT 0 7 5 1 (2 * 10 ^ 20) 0] (initState 100)).map
      fun s => (s.calculated_fees.length, s.bar_executed)) = some (0, 1) := by
  constructor
  · norm_num [snapT]
  · norm_num [runDays, Bonus1Strategy.next, initState, hp_half, sliceSum,
      dailyFee, prT, snapT, sqrt0, tick_to_price, TICK_BASE, expand_decimals,
      get_sqrt_price_x96, get_token_amounts_from_deposit_amounts,
      get_liquidity_for_amounts, get_liquidity_for_amount0, get_liquidity_for_amount1,
      mul_div, Q96, calculate_fee, get_tier_percentage]

/-- C10 (amended): in both trend-gated policies the reference price is
the sentinel `1e20` from construction until the first settlement, so on
every earlier day whose token1 price does not exceed `1e20` (every
realistic price) the gate is open and the policy stakes — a completed
day appends one fee entry; the gate can first close before a settlement
only for a price above the sentinel. -/
theorem staking_gate_before_first_settlement (sq : ℚ → ℚ) (pr : Params)
    (snaps : List Snapshot) (c : ℚ) (n : ℕ)
    (hn : n < holdingPeriod pr.lp_range) (hlen : n < snaps.length) :
    (∀ s, runDays (Bonus1Strategy.next sq pr) (snaps.take n) (initState c) = some s →
      s.last_hp_price = 10 ^ 20 ∧
      ((snaps.get ⟨n, hlen⟩).token1_price ≤ 10 ^ 20 → ∀ s',
        Bonus1Strategy.next sq pr (snaps.get ⟨n, hlen⟩) s = some s' →
        s'.calculated_fees.length = s.calculated_fees.length + 1)) ∧
    (∀ s, runDays (Bonus2Strategy.next sq pr) (snaps.take n) (initState c) = some s →
      s.last_hp_price = 10 ^ 20 ∧
      ((snaps.get ⟨n, hlen⟩).token1_price ≤ 10 ^ 20 → ∀ s',
        Bonus2Strategy.next sq pr (snaps.get ⟨n, hlen⟩) s = some s' →
        s'.calculated_fees.length = s.calculated_fees.length + 1)) := by
  have hp0 : 0 < holdingPeriod pr.lp_range := holdingPeriod_pos pr.lp_range
  constructor
  · intro s hs
    have href : s.last_hp_price = 10 ^ 20 :=
      (gated_run_inv (Bonus1Strategy.next sq pr) (holdingPeriod pr.lp_range) hp0
        (fun _ _ _ h => bonus1_next_fields h) snaps c (10 ^ 20) n
        (le_of_lt hlen) s hs).2.1 hn
    refine ⟨href, fun hprice s' hstep => ?_⟩
    have hgate : ¬ (snaps.get ⟨n, hlen⟩).token1_price > s.last_hp_price := by
      rw [href]
      exact not_lt.mpr hprice
    rcases bonus1_next_open hgate hstep with ⟨fee, -, hfees⟩
    rw [hfees]
    simp
  · intro s hs
    have href : s.last_hp_price = 10 ^ 20 :=
      (gated_run_inv (Bonus2Strategy.next sq pr) (holdingPeriod pr.lp_range) hp0
        (fun _ _ _ h => bonus2_next_fields h) snaps c (10 ^ 20) n
        (le_of_lt hlen) s hs).2.1 hn
    refine ⟨href, fun hprice s' hstep => ?_⟩
    have hgate : ¬ (snaps.get ⟨n, hlen⟩).token1_price > s.last_hp_price := by
      rw [href]
      exact not_lt.mpr hprice
    rcases bonus2_next_open hgate hstep with ⟨fee, -, hfees⟩
    rw [hfees]
    simp

/-- C10 (witness): day 1 of a `Bonus1Strategy` run with holding period
30 and token1 price 100: the reference price is still the sentinel and
the day appends one fee entry. -/
theorem staking_gate_before_first_settlement_witness :
    (initState 100).last_hp_price = 10 ^ 20 ∧
    (StrategyState.mk 100 [0] 1 (10 ^ 20)).calculated_fees.length
      = (initState 100).calculated_fees.length + 1 :=
  ⟨((staking_gate_before_first_settlement sqrt0 (prT (1 / 2)) [snapT 0 7 5 1 100 0] 100 0
      (by norm_num [prT, hp_half]) (by norm_num)).1 (initState 100) rfl).1,
   ((staking_gate_before_first_settlement sqrt0 (prT (1 / 2)) [snapT 0 7 5 1 100 0] 100 0
      (by norm_num [prT, hp_half]) (by norm_num)).1 (initState 100) rfl).2
     (by norm_num [snapT]) ⟨100, [0], 1, 10 ^ 20⟩
     (by norm_num [Bonus1Strategy.next, initState, hp_half, sliceSum,
       dailyFee, prT, snapT, sqrt0, tick_to_price, TICK_BASE, expand_decimals,
       get_sqrt_price_x96, get_token_amounts_from_deposit_amounts,
       get_liquidity_for_amounts, get_liquidity_for_amount0, get_liquidity_for_amount1,
       mul_div, Q96, calculate_fee, get_tier_percentage])⟩

end UniV3
